import Mathlib

/-!
Shallow embedding of `neuralmonkey/decoders/encoder_projection.py` and
`neuralmonkey/decoders/output_projection.py`, together with models of the
external primitives they call (`tf.concat`, `tf.layers.dense`, `tf.zeros`,
`tf.nn.relu`) and of the repository helpers that are not part of the source
excerpt (`neuralmonkey.nn.utils.dropout`, `neuralmonkey.nn.projection.maxout`,
`neuralmonkey.nn.projection.multilayer_projection`), the latter modelled from
the specification.

A 2-D tensor (batch x feature) is a list of rows of rationals together with
its static feature width, mirroring TensorFlow's static shape information
that `get_shape()` reads.  Trainable parameters that TensorFlow layers
allocate internally in the computation graph are made explicit arguments
(`DenseParams`); randomness used by dropout is made an explicit mask
function.
-/

/-- A 2-D tensor: rows of data (one per batch element) plus the static
feature width recorded in the graph, as read by `get_shape()[1]`. -/
structure Tensor where
  data : List (List ℚ)
  width : Nat
deriving Repr, DecidableEq

/-- Well-formedness of the static shape: every row really has `width`
entries. -/
def Tensor.wf (t : Tensor) : Prop := ∀ r ∈ t.data, r.length = t.width

instance (t : Tensor) : Decidable t.wf := by
  unfold Tensor.wf; infer_instance

/-- A TensorFlow value of rank 1 or rank 2, as produced by the encoder
projection functions (`tf.zeros([n])` is rank 1; concatenations and dense
layers of rank-2 inputs are rank 2). -/
inductive TF where
  | t1 (v : List ℚ)
  | t2 (t : Tensor)
deriving Repr, DecidableEq

/-- The rank (number of dimensions) of a TensorFlow value. -/
def TF.rank : TF → Nat
  | .t1 _ => 1
  | .t2 _ => 2

/-- An encoder as seen by the decoder: only its `output` attribute
(a 2-D batch x feature tensor) is read here. -/
structure Stateful where
  output : Tensor
deriving Repr, DecidableEq

/-- The trainable parameters a `tf.layers.dense` call allocates in the
graph: a kernel (input-width x units matrix, as rows) and a bias. -/
structure DenseParams where
  kernel : List (List ℚ)
  bias : List ℚ
deriving Repr, DecidableEq

/-- Model of `tf.layers.dense(x, units, activation)`: an affine map to
`units` output features, applied row-wise, followed by the activation.
The output's static width is `units` by construction, as in TensorFlow. -/
def dense (x : Tensor) (units : Nat) (p : DenseParams) (act : ℚ → ℚ) : Tensor :=
  ⟨x.data.map (fun row =>
      (List.range units).map (fun j =>
        act ((List.zipWith (fun v krow => v * krow.getD j 0) row p.kernel).sum
              + p.bias.getD j 0))),
   units⟩

/-- Model of `tf.nn.relu` on a single entry. -/
def tf_relu (x : ℚ) : ℚ := max x 0

/-- Model of `tf.concat(ts, 1)` on two tensors: rows are concatenated
pairwise and the static widths add. -/
def concat2 (a b : Tensor) : Tensor :=
  ⟨List.zipWith (· ++ ·) a.data b.data, a.width + b.width⟩

/-- Model of `tf.concat(ts, 1)` on a list of 2-D tensors: concatenation
along the feature axis. -/
def tf_concat : List Tensor → Tensor
  | [] => ⟨[], 0⟩
  | t :: rest => rest.foldl concat2 t

/-- Modelled from the spec: `dropout` from `neuralmonkey.nn.utils` is not
under `src/`.  The spec says the projection "applies dropout gated by the
training-mode flag" and the glossary describes dropout as a technique that
"zeroes random elements of a tensor during training only".  Randomness is
made explicit as a keep-mask `rnd` over (row, column) positions; kept
entries are rescaled by the reciprocal of the keep probability, and outside
training the input passes through unchanged.  The shape is preserved. -/
def dropout (x : Tensor) (keep_prob : ℚ) (train_mode : Bool)
    (rnd : Nat → Nat → Bool) : Tensor :=
  if train_mode then
    ⟨x.data.mapIdx (fun i row =>
        row.mapIdx (fun j v => if rnd i j then v / keep_prob else 0)),
     x.width⟩
  else x

/-- `empty_initial_state(train_mode, rnn_size, encoders)` from
`encoder_projection.py`: raises `ValueError` when `rnn_size` is `None`,
otherwise returns `tf.zeros([rnn_size])`, a rank-1 zero vector; the
`train_mode` and `encoders` arguments are unused. -/
def empty_initial_state (train_mode : Bool) (rnn_size : Option Nat)
    (encoders : List Stateful) : Except String TF :=
  match rnn_size with
  | none => .error "You must supply rnn_size for this type of encoder projection"
  | some n => .ok (.t1 (List.replicate n 0))

/-- The function returned by `linear_encoder_projection(dropout_keep_prob)`
from `encoder_projection.py`.  The factory captures the dropout keep
probability; the dense layer's trainable parameters `p` and the dropout
randomness `rnd` are the graph-internal data made explicit.  The returned
function raises when `rnn_size` is `None` or the encoder list is `None` or
empty, and otherwise concatenates the encoders' outputs along the feature
axis, applies dropout gated by `train_mode`, and applies one trainable
affine projection (no activation) to `rnn_size` units. -/
def linear_encoder_projection (dropout_keep_prob : ℚ) (p : DenseParams)
    (rnd : Nat → Nat → Bool) (train_mode : Bool) (rnn_size : Option Nat)
    (encoders : Option (List Stateful)) : Except String TF :=
  match rnn_size with
  | none => .error "You must supply rnn_size for this type of encoder projection"
  | some n =>
    match encoders with
    | none => .error "There must be at least one encoder for this type of encoder projection"
    | some encs =>
      if encs.isEmpty then
        .error "There must be at least one encoder for this type of encoder projection"
      else
        .ok (.t2 (dense
          (dropout (tf_concat (encs.map Stateful.output)) dropout_keep_prob train_mode rnd)
          n p id))

/-- `concat_encoder_projection(train_mode, rnn_size, encoders)` from
`encoder_projection.py`: raises when the encoder list is `None` or empty;
when `rnn_size` is given, asserts it equals the sum of the encoders' static
feature widths (`e.output.get_shape()[1].value`); returns the raw
concatenation of the encoders' outputs along the feature axis. -/
def concat_encoder_projection (train_mode : Bool) (rnn_size : Option Nat)
    (encoders : Option (List Stateful)) : Except String TF :=
  match encoders with
  | none => .error "There must be at least one encoder for this type of encoder projection"
  | some encs =>
    if encs.isEmpty then
      .error "There must be at least one encoder for this type of encoder projection"
    else
      match rnn_size with
      | some n =>
        if n = (encs.map (fun e => e.output.width)).sum then
          .ok (.t2 (tf_concat (encs.map Stateful.output)))
        else
          .error "AssertionError"
      | none => .ok (.t2 (tf_concat (encs.map Stateful.output)))

/-- Whether an `Except` value is an error (a raised Python exception). -/
def isErr {ε α : Type} : Except ε α → Bool
  | .error _ => true
  | .ok _ => false

/-- The `OutputProjection` callable type from `output_projection.py`:
(previous state, previous output, context tensors, training-mode flag) to
the projected output tensor. -/
abbrev OutputProjection := Tensor → Tensor → List Tensor → Bool → Tensor

/-- `_legacy_linear(output_size)` from `output_projection.py`: returns the
projection together with `output_size`.  The projection concatenates the
previous state with the context tensors (ignoring `prev_output` and
`train_mode`) and applies one affine transform (`tf.layers.dense`, no
activation) to `output_size` units; its trainable parameters `p` are made
explicit. -/
def _legacy_linear (output_size : Nat) (p : DenseParams) :
    OutputProjection × Nat :=
  (fun prev_state _prev_output ctx_tensors _train_mode =>
    dense (tf_concat (prev_state :: ctx_tensors)) output_size p id,
   output_size)

/-- `_legacy_relu(output_size)` from `output_projection.py`: like
`_legacy_linear` but the dense layer uses the `tf.nn.relu` activation. -/
def _legacy_relu (output_size : Nat) (p : DenseParams) :
    OutputProjection × Nat :=
  (fun prev_state _prev_output ctx_tensors _train_mode =>
    dense (tf_concat (prev_state :: ctx_tensors)) output_size p tf_relu,
   output_size)

/-- `nonlinear_output(output_size, activation_fn)` from
`output_projection.py` (the Python default for `activation_fn` is
`tf.tanh`; activations are kept abstract as functions on entries): the
projection concatenates previous state, previous output and the context
tensors, and applies a single dense layer with the given activation to
`output_size` units; it is paired with `output_size`. -/
def nonlinear_output (output_size : Nat) (activation_fn : ℚ → ℚ)
    (p : DenseParams) : OutputProjection × Nat :=
  (fun prev_state prev_output ctx_tensors _train_mode =>
    dense (tf_concat (prev_state :: prev_output :: ctx_tensors))
      output_size p activation_fn,
   output_size)

/-- Modelled from the spec: `maxout` from `neuralmonkey.nn.projection` is
not under `src/`.  The spec describes it as "element-wise max over grouped
affine projections" "producing a layer of the configured width": an affine
projection to `size * pool_size` units followed by the maximum within each
consecutive group of `pool_size` entries, giving static width `size`. -/
def maxout (x : Tensor) (size : Nat) (pool_size : Nat) (p : DenseParams) :
    Tensor :=
  ⟨(dense x (size * pool_size) p id).data.map (fun row =>
      (List.range size).map (fun j =>
        ((List.range pool_size).map (fun k => row.getD (j * pool_size + k) 0)).foldl
          max (row.getD (j * pool_size) 0))),
   size⟩

/-- `maxout_output(maxout_size)` from `output_projection.py`: the
projection concatenates previous state, previous output and the context
tensors and applies the maxout transformation of width `maxout_size`
(ignoring the training-mode argument); it is paired with `maxout_size`. -/
def maxout_output (maxout_size : Nat) (pool_size : Nat) (p : DenseParams) :
    OutputProjection × Nat :=
  (fun prev_state prev_output ctx_tensors _ =>
    maxout (tf_concat (prev_state :: prev_output :: ctx_tensors))
      maxout_size pool_size p,
   maxout_size)

/-- Modelled from the spec: `multilayer_projection` from
`neuralmonkey.nn.projection` is not under `src/`.  The spec describes the
MLP output as "a stack of dense layers with a configurable list of hidden
sizes, shared activation function, and dropout applied at each layer gated
by the training-mode flag": we fold over `layer_sizes`, applying at layer
`i` a dense layer of that size with the shared activation (parameters
`params i`) followed by dropout (mask `rnd i`). -/
def multilayer_projection (x : Tensor) (layer_sizes : List Nat)
    (activation : ℚ → ℚ) (dropout_keep_prob : ℚ) (train_mode : Bool)
    (params : Nat → DenseParams) (rnd : Nat → Nat → Nat → Bool) : Tensor :=
  layer_sizes.enum.foldl
    (fun acc q =>
      dropout (dense acc q.2 (params q.1) activation)
        dropout_keep_prob train_mode (rnd q.1))
    x

/-- `mlp_output(layer_sizes, activation, dropout_keep_prob)` from
`output_projection.py`: builds the projection that concatenates previous
state, previous output and the context tensors and feeds the result to
`multilayer_projection`, and pairs it with `layer_sizes[-1]`.  Evaluating
`layer_sizes[-1]` on an empty list raises `IndexError` at construction
time, before any projection is returned. -/
def mlp_output (layer_sizes : List Nat) (activation : ℚ → ℚ)
    (dropout_keep_prob : ℚ) (params : Nat → DenseParams)
    (rnd : Nat → Nat → Nat → Bool) :
    Except String (OutputProjection × Nat) :=
  match layer_sizes.getLast? with
  | none => .error "IndexError: list index out of range"
  | some last =>
    .ok (fun prev_state prev_output ctx_tensors train_mode =>
      multilayer_projection
        (tf_concat (prev_state :: prev_output :: ctx_tensors))
        layer_sizes activation dropout_keep_prob train_mode params rnd,
     last)

/-- A dense layer's static output width is its `units` argument. -/
theorem dense_width (x : Tensor) (u : Nat) (p : DenseParams) (act : ℚ → ℚ) :
    (dense x u p act).width = u := rfl

/-- Every row of a dense layer's output has `units` entries. -/
theorem dense_row_length (x : Tensor) (u : Nat) (p : DenseParams)
    (act : ℚ → ℚ) : ∀ row ∈ (dense x u p act).data, row.length = u := by
  intro row hrow
  simp only [dense, List.mem_map] at hrow
  obtain ⟨r, _, rfl⟩ := hrow
  simp

/-- Every row of a pairwise row-concatenation comes from appending a row of
each operand. -/
theorem mem_zipWith_append {a b : List (List ℚ)} {r : List ℚ}
    (h : r ∈ List.zipWith (· ++ ·) a b) :
    ∃ ra ∈ a, ∃ rb ∈ b, r = ra ++ rb := by
  induction a generalizing b with
  | nil => simp at h
  | cons x xs ih =>
    cases b with
    | nil => simp at h
    | cons y ys =>
      simp only [List.zipWith_cons_cons, List.mem_cons] at h
      rcases h with rfl | h
      · exact ⟨x, by simp, y, by simp, rfl⟩
      · obtain ⟨ra, hra, rb, hrb, rfl⟩ := ih h
        exact ⟨ra, by simp [hra], rb, by simp [hrb], rfl⟩

/-- Concatenating two well-formed tensors along the feature axis yields a
well-formed tensor (whose width is the sum of the two widths). -/
theorem concat2_wf {a b : Tensor} (ha : a.wf) (hb : b.wf) :
    (concat2 a b).wf := by
  intro r hr
  simp only [concat2] at hr
  obtain ⟨ra, hra, rb, hrb, rfl⟩ := mem_zipWith_append hr
  show (ra ++ rb).length = a.width + b.width
  rw [List.length_append, ha ra hra, hb rb hrb]

/-- The static width of a fold of pairwise concatenations is the sum of
the widths. -/
theorem foldl_concat2_width (ts : List Tensor) (acc : Tensor) :
    (ts.foldl concat2 acc).width = acc.width + (ts.map Tensor.width).sum := by
  induction ts generalizing acc with
  | nil => simp
  | cons t ts ih =>
    simp only [List.foldl_cons, List.map_cons, List.sum_cons, ih, concat2]
    omega

/-- A fold of pairwise concatenations of well-formed tensors is
well-formed. -/
theorem foldl_concat2_wf (ts : List Tensor) (acc : Tensor)
    (hacc : acc.wf) (hts : ∀ t ∈ ts, t.wf) : (ts.foldl concat2 acc).wf := by
  induction ts generalizing acc with
  | nil => exact hacc
  | cons t ts ih =>
    exact ih (concat2 acc t) (concat2_wf hacc (hts t (by simp)))
      (fun u hu => hts u (by simp [hu]))

/-- `tf.concat` of a nonempty list: static width is the sum of the
operands' widths. -/
theorem tf_concat_width (t : Tensor) (ts : List Tensor) :
    (tf_concat (t :: ts)).width = t.width + (ts.map Tensor.width).sum :=
  foldl_concat2_width ts t

/-- `tf.concat` of well-formed tensors is well-formed. -/
theorem tf_concat_wf (t : Tensor) (ts : List Tensor)
    (h : ∀ u ∈ t :: ts, u.wf) : (tf_concat (t :: ts)).wf :=
  foldl_concat2_wf ts t (h t (by simp)) (fun u hu => h u (by simp [hu]))

/-- Claim C1: for every positive `rnn_size`, `empty_initial_state` returns
a zero-filled vector of length `rnn_size`, for any encoders list and any
`train_mode` value (both are ignored); it raises an error exactly when
`rnn_size` is omitted (`None`). -/
theorem C1_empty_initial_state (tm : Bool) (rs : Option Nat)
    (encs : List Stateful) :
    (isErr (empty_initial_state tm rs encs) = true ↔ rs = none) ∧
    (∀ n, 0 < n → rs = some n →
      empty_initial_state tm rs encs = .ok (.t1 (List.replicate n 0)) ∧
      (List.replicate n (0 : ℚ)).length = n ∧
      ∀ x ∈ List.replicate n (0 : ℚ), x = 0) ∧
    (∀ tm2 encs2, empty_initial_state tm rs encs =
      empty_initial_state tm2 rs encs2) := by
  refine ⟨?_, ?_, ?_⟩
  · cases rs <;> simp [empty_initial_state, isErr]
  · rintro n hn rfl
    exact ⟨rfl, List.length_replicate _ _,
      fun x hx => List.eq_of_mem_replicate hx⟩
  · intro tm2 encs2
    cases rs <;> rfl

/-- Witness for C1 at `rnn_size = 3`. -/
theorem C1_witness :
    empty_initial_state true (some 3) [] = .ok (.t1 (List.replicate 3 0)) :=
  ((C1_empty_initial_state true (some 3) []).2.1 3 (by decide) rfl).1

/-- Claim C2: for every nonempty encoder list, every `rnn_size` and every
dropout keep probability, the function returned by
`linear_encoder_projection` computes its result by concatenating the
encoder outputs along the feature axis, then applying dropout gated by
`train_mode`, then one trainable affine projection; the output's feature
width equals the requested `rnn_size` (both the static width and the
length of every output row). -/
theorem C2_linear_encoder_projection (k : ℚ) (p : DenseParams)
    (rnd : Nat → Nat → Bool) (tm : Bool) (n : Nat) (encs : List Stateful)
    (h : encs ≠ []) :
    linear_encoder_projection k p rnd tm (some n) (some encs) =
      .ok (.t2 (dense (dropout (tf_concat (encs.map Stateful.output)) k tm rnd)
        n p id)) ∧
    (dense (dropout (tf_concat (encs.map Stateful.output)) k tm rnd)
        n p id).width = n ∧
    ∀ row ∈ (dense (dropout (tf_concat (encs.map Stateful.output)) k tm rnd)
        n p id).data, row.length = n := by
  refine ⟨?_, rfl, dense_row_length _ _ _ _⟩
  cases encs with
  | nil => exact absurd rfl h
  | cons e es => rfl

/-- Witness for C2 at one single-feature encoder and `rnn_size = 2`. -/
theorem C2_witness :
    linear_encoder_projection 1 ⟨[], []⟩ (fun _ _ => true) false (some 2)
      (some [⟨⟨[[1]], 1⟩⟩]) =
      .ok (.t2 (dense (dropout (tf_concat [⟨[[1]], 1⟩]) 1 false
        (fun _ _ => true)) 2 ⟨[], []⟩ id)) :=
  (C2_linear_encoder_projection 1 ⟨[], []⟩ (fun _ _ => true) false 2
    [⟨⟨[[1]], 1⟩⟩] (by simp)).1

/-- Claim C3: the function returned by `linear_encoder_projection` raises
an error if and only if `rnn_size` is omitted (`None`) or the encoder list
is omitted or empty; under these error conditions no result tensor is
produced. -/
theorem C3_linear_raises_iff (k : ℚ) (p : DenseParams)
    (rnd : Nat → Nat → Bool) (tm : Bool) (rs : Option Nat)
    (encs : Option (List Stateful)) :
    (isErr (linear_encoder_projection k p rnd tm rs encs) = true ↔
      rs = none ∨ encs = none ∨ encs = some []) ∧
    (∀ t, linear_encoder_projection k p rnd tm rs encs = .ok t →
      rs ≠ none ∧ encs ≠ none ∧ encs ≠ some []) := by
  constructor
  · cases rs with
    | none => simp [linear_encoder_projection, isErr]
    | some n =>
      cases encs with
      | none => simp [linear_encoder_projection, isErr]
      | some l =>
        cases l with
        | nil => simp [linear_encoder_projection, isErr]
        | cons e es => simp [linear_encoder_projection, isErr]
  · intro t ht
    refine ⟨?_, ?_, ?_⟩ <;> rintro rfl
    · simp [linear_encoder_projection] at ht
    · cases rs <;> simp [linear_encoder_projection] at ht
    · cases rs <;> simp [linear_encoder_projection] at ht

/-- Witness for C3 at `rnn_size = 1` and one single-feature encoder. -/
theorem C3_witness :
    (some 1 : Option Nat) ≠ none ∧
    (some [(⟨⟨[[1]], 1⟩⟩ : Stateful)] : Option (List Stateful)) ≠ none ∧
    (some [(⟨⟨[[1]], 1⟩⟩ : Stateful)] : Option (List Stateful)) ≠ some [] :=
  (C3_linear_raises_iff 1 ⟨[], []⟩ (fun _ _ => true) false (some 1)
    (some [⟨⟨[[1]], 1⟩⟩])).2
    (.t2 (dense (dropout (tf_concat [⟨[[1]], 1⟩]) 1 false (fun _ _ => true))
      1 ⟨[], []⟩ id)) rfl

/-- Claim C4: for every nonempty encoder list, `concat_encoder_projection`
returns the raw concatenation of the encoder outputs along the feature
axis, so the output's feature width equals the sum of the encoders'
feature widths (as static width unconditionally, and as the length of
every data row for well-formed encoder outputs). -/
theorem C4_concat_encoder_projection (tm : Bool) (rs : Option Nat)
    (encs : List Stateful) (h : encs ≠ []) :
    concat_encoder_projection tm none (some encs) =
      .ok (.t2 (tf_concat (encs.map Stateful.output))) ∧
    (∀ t, concat_encoder_projection tm rs (some encs) = .ok t →
      t = .t2 (tf_concat (encs.map Stateful.output))) ∧
    (tf_concat (encs.map Stateful.output)).width =
      (encs.map (fun e => e.output.width)).sum ∧
    ((∀ e ∈ encs, e.output.wf) →
      ∀ row ∈ (tf_concat (encs.map Stateful.output)).data,
        row.length = (encs.map (fun e => e.output.width)).sum) := by
  obtain ⟨e, es, rfl⟩ : ∃ e es, encs = e :: es := by
    cases encs with
    | nil => exact absurd rfl h
    | cons e es => exact ⟨e, es, rfl⟩
  have hw : (tf_concat ((e :: es).map Stateful.output)).width =
      ((e :: es).map (fun x => x.output.width)).sum := by
    rw [List.map_cons, tf_concat_width, List.map_map, List.map_cons,
      List.sum_cons]
    rfl
  refine ⟨rfl, ?_, hw, ?_⟩
  · intro t ht
    cases rs with
    | none => exact (Except.ok.inj ht).symm
    | some n =>
      change (if n = ((e :: es).map (fun x => x.output.width)).sum
          then Except.ok (TF.t2 (tf_concat ((e :: es).map Stateful.output)))
          else Except.error "AssertionError") = Except.ok t at ht
      by_cases hn : n = ((e :: es).map (fun x => x.output.width)).sum
      · rw [if_pos hn] at ht
        exact (Except.ok.inj ht).symm
      · rw [if_neg hn] at ht
        exact absurd ht (by simp)
  · intro hwf row hrow
    have hconc : (tf_concat ((e :: es).map Stateful.output)).wf := by
      rw [List.map_cons]
      refine tf_concat_wf _ _ ?_
      intro u hu
      rw [← List.map_cons] at hu
      obtain ⟨s, hs, rfl⟩ := List.mem_map.1 hu
      exact hwf s hs
    rw [← hw]
    exact hconc row hrow

/-- Witness for C4 at one two-feature encoder. -/
theorem C4_witness :
    concat_encoder_projection false none (some [⟨⟨[[1, 2]], 2⟩⟩]) =
      .ok (.t2 (tf_concat [⟨[[1, 2]], 2⟩])) :=
  (C4_concat_encoder_projection false none [⟨⟨[[1, 2]], 2⟩⟩] (by simp)).1

/-- Claim C5: `concat_encoder_projection` raises when the encoder list is
omitted or empty; with a declared `rnn_size` it raises exactly when that
size differs from the sum of the encoders' feature widths; with
`rnn_size = None` no size check happens and any nonempty encoder list
succeeds. -/
theorem C5_concat_raises_iff (tm : Bool) (rs : Option Nat)
    (encs : Option (List Stateful)) :
    (isErr (concat_encoder_projection tm rs encs) = true ↔
      encs = none ∨ encs = some [] ∨
      ∃ n l, rs = some n ∧ encs = some l ∧ l ≠ [] ∧
        n ≠ (l.map (fun e => e.output.width)).sum) ∧
    (∀ l, encs = some l → l ≠ [] → rs = none →
      concat_encoder_projection tm rs encs =
        .ok (.t2 (tf_concat (l.map Stateful.output)))) := by
  constructor
  · cases encs with
    | none => simp [concat_encoder_projection, isErr]
    | some l =>
      cases l with
      | nil => simp [concat_encoder_projection, isErr]
      | cons e es =>
        cases rs with
        | none => simp [concat_encoder_projection, isErr]
        | some n =>
          have hdef : concat_encoder_projection tm (some n) (some (e :: es)) =
              if n = ((e :: es).map (fun x => x.output.width)).sum
              then Except.ok (TF.t2 (tf_concat ((e :: es).map Stateful.output)))
              else Except.error "AssertionError" := rfl
          rw [hdef]
          by_cases hn : n = ((e :: es).map (fun x => x.output.width)).sum
          · rw [if_pos hn]
            constructor
            · intro hfalse
              exact absurd hfalse (by simp [isErr])
            · rintro (h1 | h2 | ⟨n', l', hn', hl', hlne, hsum⟩)
              · exact Option.noConfusion h1
              · exact absurd (Option.some.inj h2) (by simp)
              · injection hn' with hn1
                injection hl' with hl1
                subst hn1
                subst hl1
                exact absurd hn hsum
          · rw [if_neg hn]
            constructor
            · intro _
              exact Or.inr (Or.inr ⟨n, e :: es, rfl, rfl, by simp, hn⟩)
            · intro _
              rfl
  · rintro l rfl hl rfl
    cases l with
    | nil => exact absurd rfl hl
    | cons e es => rfl

/-- Witness for C5: a nonempty encoder list with omitted `rnn_size`
succeeds. -/
theorem C5_witness :
    concat_encoder_projection true none (some [⟨⟨[[1]], 1⟩⟩]) =
      .ok (.t2 (tf_concat [⟨[[1]], 1⟩])) :=
  (C5_concat_raises_iff true none (some [⟨⟨[[1]], 1⟩⟩])).2
    [⟨⟨[[1]], 1⟩⟩] rfl (by simp) rfl

/-- Claim C6: the legacy linear and legacy ReLU output projections each
concatenate the previous recurrent state with the context tensors
(excluding the previous output), apply one affine transform to the
configured output size (followed by ReLU in the ReLU variant), and the
factory returns this function paired with the configured output size. -/
theorem C6_legacy_projections (n : Nat) (p : DenseParams) (ps po : Tensor)
    (ctx : List Tensor) (tm : Bool) :
    ((_legacy_linear n p).1 ps po ctx tm =
      dense (tf_concat (ps :: ctx)) n p id) ∧
    ((_legacy_relu n p).1 ps po ctx tm =
      dense (tf_concat (ps :: ctx)) n p tf_relu) ∧
    (_legacy_linear n p).2 = n ∧
    (_legacy_relu n p).2 = n ∧
    (∀ row ∈ ((_legacy_linear n p).1 ps po ctx tm).data, row.length = n) ∧
    (∀ row ∈ ((_legacy_relu n p).1 ps po ctx tm).data, row.length = n) :=
  ⟨rfl, rfl, rfl, rfl, dense_row_length _ _ _ _, dense_row_length _ _ _ _⟩

/-- Witness for C6: the single output row at a concrete input has the
configured width. -/
theorem C6_witness : ([(5 : ℚ)]).length = 1 :=
  (C6_legacy_projections 1 ⟨[[2]], [3]⟩ ⟨[[1]], 1⟩ ⟨[], 0⟩ [] false).2.2.2.2.1
    [(5 : ℚ)] (by
      simp [_legacy_linear, dense, tf_concat, List.range_succ]
      norm_num)

/-- Claim C7: the nonlinear and maxout output projections both concatenate
previous state, previous output and all context tensors along the feature
axis; `nonlinear_output` then applies a single dense layer with the
configurable activation and declares width `output_size`, while
`maxout_output` applies a maxout transformation and declares width
`maxout_size`; for any batch size and any number of context tensors. -/
theorem C7_nonlinear_maxout (n m pool : Nat) (f : ℚ → ℚ) (p : DenseParams)
    (ps po : Tensor) (ctx : List Tensor) (tm : Bool) :
    ((nonlinear_output n f p).1 ps po ctx tm =
      dense (tf_concat (ps :: po :: ctx)) n p f) ∧
    (nonlinear_output n f p).2 = n ∧
    ((maxout_output m pool p).1 ps po ctx tm =
      maxout (tf_concat (ps :: po :: ctx)) m pool p) ∧
    (maxout_output m pool p).2 = m ∧
    (∀ row ∈ ((nonlinear_output n f p).1 ps po ctx tm).data,
      row.length = n) ∧
    (∀ row ∈ ((maxout_output m pool p).1 ps po ctx tm).data,
      row.length = m) := by
  refine ⟨rfl, rfl, rfl, rfl, dense_row_length _ _ _ _, ?_⟩
  intro row hrow
  simp only [maxout_output, maxout, List.mem_map] at hrow
  obtain ⟨r, _, rfl⟩ := hrow
  simp

/-- Witness for C7: the single maxout output row at a concrete input has
the configured width. -/
theorem C7_witness : ([(3 : ℚ)]).length = 1 :=
  (C7_nonlinear_maxout 1 1 1 id ⟨[[1], [1]], []⟩ ⟨[[1]], 1⟩ ⟨[[2]], 1⟩ []
    false).2.2.2.2.2 [(3 : ℚ)] (by
      simp [maxout_output, maxout, dense, tf_concat, concat2, List.range_succ]
      norm_num)

/-- Claim C8: for every nonempty `layer_sizes` list, `mlp_output` returns
a projection whose declared output width equals the last element of
`layer_sizes`; with an empty `layer_sizes` list, `mlp_output` fails at
construction time (`layer_sizes[-1]` raises) rather than returning a
projection. -/
theorem C8_mlp_output (ls : List Nat) (act : ℚ → ℚ) (k : ℚ)
    (params : Nat → DenseParams) (rnd : Nat → Nat → Nat → Bool) :
    (ls = [] → isErr (mlp_output ls act k params rnd) = true) ∧
    ∀ h : ls ≠ [], ∃ proj, mlp_output ls act k params rnd =
      .ok (proj, ls.getLast h) := by
  constructor
  · rintro rfl
    rfl
  · intro h
    refine ⟨fun prev_state prev_output ctx_tensors train_mode =>
      multilayer_projection
        (tf_concat (prev_state :: prev_output :: ctx_tensors))
        ls act k train_mode params rnd, ?_⟩
    simp [mlp_output, List.getLast?_eq_getLast ls h]

/-- Witness for C8: empty list fails, `[3]` declares width 3. -/
theorem C8_witness :
    isErr (mlp_output [] id 1 (fun _ => ⟨[], []⟩) (fun _ _ _ => true)) = true ∧
    ∃ proj, mlp_output [3] id 1 (fun _ => ⟨[], []⟩) (fun _ _ _ => true) =
      .ok (proj, ([3] : List Nat).getLast (by simp)) :=
  ⟨(C8_mlp_output [] id 1 (fun _ => ⟨[], []⟩) (fun _ _ _ => true)).1 rfl,
   (C8_mlp_output [3] id 1 (fun _ => ⟨[], []⟩) (fun _ _ _ => true)).2 (by simp)⟩

/-- Counterexample to claim C9 as stated: at `rnn_size = 2`,
`empty_initial_state` does not raise, yet its result is the rank-1 tensor
`tf.zeros([2])`, not a 2-D tensor. -/
theorem C9_counterexample :
    empty_initial_state true (some 2) [] = .ok (.t1 [0, 0]) ∧
    TF.rank (TF.t1 [0, 0]) ≠ 2 := by
  constructor
  · rfl
  · decide

/-- Claim C9 as amended: `linear_encoder_projection` and
`concat_encoder_projection` return a single 2-D tensor whenever they do
not raise, while `empty_initial_state` returns a rank-1 (1-D) zero vector
whenever it does not raise. -/
theorem C9_amended_ranks (k : ℚ) (p : DenseParams) (rnd : Nat → Nat → Bool)
    (tm1 tm2 tm3 : Bool) (rs1 rs2 rs3 : Option Nat) (encs1 : List Stateful)
    (encs2 encs3 : Option (List Stateful)) :
    (∀ r, empty_initial_state tm1 rs1 encs1 = .ok r → TF.rank r = 1) ∧
    (∀ r, linear_encoder_projection k p rnd tm2 rs2 encs2 = .ok r →
      TF.rank r = 2) ∧
    (∀ r, concat_encoder_projection tm3 rs3 encs3 = .ok r →
      TF.rank r = 2) := by
  refine ⟨?_, ?_, ?_⟩
  · intro r hr
    cases rs1 with
    | none => simp [empty_initial_state] at hr
    | some n =>
      simp only [empty_initial_state, Except.ok.injEq] at hr
      rw [← hr]
      rfl
  · intro r hr
    cases rs2 with
    | none => simp [linear_encoder_projection] at hr
    | some n =>
      cases encs2 with
      | none => simp [linear_encoder_projection] at hr
      | some l =>
        cases l with
        | nil => simp [linear_encoder_projection] at hr
        | cons e es =>
          simp only [linear_encoder_projection, List.isEmpty_cons,
            Bool.false_eq_true, if_false, Except.ok.injEq] at hr
          rw [← hr]
          rfl
  · intro r hr
    cases encs3 with
    | none => simp [concat_encoder_projection] at hr
    | some l =>
      cases l with
      | nil => simp [concat_encoder_projection] at hr
      | cons e es =>
        cases rs3 with
        | none =>
          simp only [concat_encoder_projection, List.isEmpty_cons,
            Bool.false_eq_true, if_false, Except.ok.injEq] at hr
          rw [← hr]
          rfl
        | some n =>
          change (if n = ((e :: es).map (fun x => x.output.width)).sum
              then Except.ok (TF.t2 (tf_concat ((e :: es).map Stateful.output)))
              else Except.error "AssertionError") = Except.ok r at hr
          by_cases hn : n = ((e :: es).map (fun x => x.output.width)).sum
          · rw [if_pos hn] at hr
            rw [← Except.ok.inj hr]
            rfl
          · rw [if_neg hn] at hr
            exact absurd hr (by simp)

/-- Witness for the amended C9 at `rnn_size = 2`. -/
theorem C9_witness : TF.rank (TF.t1 (List.replicate 2 0)) = 1 :=
  (C9_amended_ranks 1 ⟨[], []⟩ (fun _ _ => true) true true true (some 2)
    (some 1) none [] (some [⟨⟨[[1]], 1⟩⟩]) (some [⟨⟨[[1]], 1⟩⟩])).1
    (TF.t1 (List.replicate 2 0)) rfl

/-- Claim C10: the legacy linear, legacy ReLU and maxout output
projections are independent of `train_mode`, and the two legacy variants
are additionally independent of `prev_output`: invocations agreeing on all
other arguments produce equal outputs. -/
theorem C10_ignored_arguments (n m pool : Nat) (p : DenseParams)
    (ps po po2 : Tensor) (ctx : List Tensor) (tm tm2 : Bool) :
    (_legacy_linear n p).1 ps po ctx tm =
      (_legacy_linear n p).1 ps po2 ctx tm2 ∧
    (_legacy_relu n p).1 ps po ctx tm =
      (_legacy_relu n p).1 ps po2 ctx tm2 ∧
    (maxout_output m pool p).1 ps po ctx tm =
      (maxout_output m pool p).1 ps po ctx tm2 :=
  ⟨rfl, rfl, rfl⟩
